import Mathlib

/-!
# Verification of the DUAS-Laptop supervision core (`src/server/server.py`)

A shallow embedding of the watchdog's supervision state machine.  External
effects (ping probes, power-source readings, clock readings, SSH connection
attempts, remote command executions) are modelled as oracle streams that each
primitive call consumes in program order.  Each function returns `none` when
its oracle streams run out (the modelled execution is cut off there), and
otherwise either a normal return or a propagating Python exception, together
with the updated shared state and a trace of observable events (every write to
the shared dictionary is recorded as a `snap` of the state after that write).
-/

namespace DUAS

/-- The shared status dictionary `shared_data`.  A `none` field models an
absent key (`shutdown_timestamp` is deleted on abort; keys are absent before
their first write).  `stats` is kept opaque as the raw parsed payload. -/
structure SharedData where
  connection : Option Bool
  shutdown_scheduled : Option Bool
  shutdown_timestamp : Option Nat
  stats : Option String
deriving Repr, DecidableEq

/-- `shared_data` before any key has been written. -/
def emptyShared : SharedData := ⟨none, none, none, none⟩

/-- The Python exception classes the program distinguishes.
`noValidConnections` (paramiko's `NoValidConnectionsError`) is not a subclass
of `sshException` (paramiko's `SSHException`), which is why the source imports
and catches the two separately. -/
inductive PyErr where
  | sshException
  | noValidConnections
  | jsonDecodeError
  | keyboardInterrupt
deriving Repr, DecidableEq

/-- Observable events of a run: shared-dict writes (`snap` records the state
just after the write), oracle observations, wake-on-lan packets, SSH connect
attempts, remote commands, closing the connection, sleeps, and the start/stop
of the background stats loop. -/
inductive Ev where
  | snap (d : SharedData)
  | pingObs (b : Bool)
  | powerObs (b : Bool)
  | wol
  | connAttempt
  | cmd (c : String)
  | closeConn
  | sleepEv (n : Nat)
  | startStats
  | killStats
deriving Repr, DecidableEq

/-- `Server.PING_RETRY_LIMIT` (class constant). -/
def PING_RETRY_LIMIT : Nat := 4

/-- `Server.WOL_PACKET_INTERVAL` (class constant, seconds). -/
def WOL_PACKET_INTERVAL : Nat := 10

/-- `Server.SSH_RETRY_LIMIT` (class constant). -/
def SSH_RETRY_LIMIT : Nat := 5

/-- `Server.SSH_RETRY_INTERVAL` (class constant, seconds). -/
def SSH_RETRY_INTERVAL : Nat := 10

/-- Per-instance configuration: the class constants that `Server.__init__`
may override on the instance.  Durations are nonnegative integers. -/
structure ServerConfig where
  BATTERY_CHECK_INTERVAL : Nat
  STATS_CHECK_INTERVAL : Nat
  SHUTDOWN_DELAY : Nat
  BATTERY_CHECK_INTERVAL_DURING_SHUTDOWN : Nat
  UI : Bool
deriving Repr, DecidableEq

/-- `Server.__init__`: each optional argument overrides the class default
when it is not `None`.  `BATTERY_CHECK_INTERVAL_DURING_SHUTDOWN` has no
constructor parameter and always keeps the class value `1`. -/
def serverInit (battery_check_interval : Option Nat) (stats_check_interval : Option Nat)
    (shutdown_delay : Option Nat) (ui : Option Bool) : ServerConfig :=
  { BATTERY_CHECK_INTERVAL := battery_check_interval.getD 5
    STATS_CHECK_INTERVAL := stats_check_interval.getD 10
    SHUTDOWN_DELAY := shutdown_delay.getD 4
    BATTERY_CHECK_INTERVAL_DURING_SHUTDOWN := 1
    UI := ui.getD true }

/-- The default configuration (no constructor overrides). -/
def cfgDefault : ServerConfig := serverInit none none none none

/-- Result of one remote command execution: its stdout, or the exception the
transport raised. -/
inductive CmdRes where
  | out (s : String)
  | raise (e : PyErr)
deriving Repr, DecidableEq

/-- Mutable server state: the shared dictionary and whether `self.connection`
currently holds an object (`conn = true` means `connection is not None`). -/
structure St where
  sd : SharedData
  conn : Bool
deriving Repr, DecidableEq

/-- The oracle streams, consumed in program order: ping results
(`client_is_alive`), power-source readings (`on_mains_power`), clock readings
(`time()`), SSH open results (`none` = success, `some e` = raise `e`), and
remote command results. -/
structure Streams where
  pings : List Bool
  powers : List Bool
  times : List Nat
  conns : List (Option PyErr)
  cmds : List CmdRes
deriving Repr, DecidableEq

/-- Outcome of running a piece of the program: normal return of a value, or a
propagating exception; in both cases with the state, remaining streams and
the emitted event trace. -/
inductive Out (α : Type) where
  | ok (a : α) (st : St) (s : Streams) (tr : List Ev)
  | err (e : PyErr) (st : St) (s : Streams) (tr : List Ev)
deriving Repr

/-- `none` models oracle-stream exhaustion: the modelled execution is cut off
before the program fragment finished. -/
abbrev M (α : Type) := Option (Out α)

/-- The trace of an outcome. -/
def Out.trace {α : Type} : Out α → List Ev
  | .ok _ _ _ tr => tr
  | .err _ _ _ tr => tr

/-- The final state of an outcome. -/
def Out.stOf {α : Type} : Out α → St
  | .ok _ st _ _ => st
  | .err _ st _ _ => st

/-- Prefix an already-emitted trace onto an outcome. -/
def Out.withTrace {α : Type} (tr0 : List Ev) : Out α → Out α
  | .ok a st s tr => .ok a st s (tr0 ++ tr)
  | .err e st s tr => .err e st s (tr0 ++ tr)

/-- Prefix an already-emitted trace onto a computation. -/
def M.withTrace {α : Type} (tr0 : List Ev) (m : M α) : M α :=
  m.map (Out.withTrace tr0)

/-- Sequencing: exceptions and stream exhaustion propagate, traces
accumulate. -/
def M.bind {α β : Type} (m : M α) (f : α → St → Streams → M β) : M β :=
  match m with
  | none => none
  | some (.err e st s tr) => some (.err e st s tr)
  | some (.ok a st s tr) => M.withTrace tr (f a st s)

/-- The loop body of `Server.wait_for_client_wakeup`, on explicit ping and
power streams.  Per iteration: one ping probe; if alive, return.  Otherwise
one power reading decides whether to send a wake-on-lan packet (only on
mains), a second power reading is consumed by the log-message f-string, and
the loop sleeps `WOL_PACKET_INTERVAL` seconds.  Returns the leftover streams
and the trace, or `none` when a stream runs out. -/
def wakeupGo : List Bool → List Bool → Option (List Bool × List Bool × List Ev)
  | [], _ => none
  | alive :: pings, powers =>
    if alive then some (pings, powers, [Ev.pingObs true])
    else
      match powers with
      | [] => none
      | p :: powers2 =>
        match powers2 with
        | [] => none
        | p2 :: powers3 =>
          match wakeupGo pings powers3 with
          | none => none
          | some (pg, pw, tr) =>
            some (pg, pw, Ev.pingObs false :: Ev.powerObs p ::
              ((if p then [Ev.wol] else []) ++
                Ev.powerObs p2 :: Ev.sleepEv WOL_PACKET_INTERVAL :: tr))

/-- `Server.wait_for_client_wakeup`: blocks until a ping probe succeeds.
Touches neither the shared dictionary nor the connection. -/
def wait_for_client_wakeup (st : St) (s : Streams) : M Unit :=
  match wakeupGo s.pings s.powers with
  | none => none
  | some (pg, pw, tr) => some (.ok () st { s with pings := pg, powers := pw } tr)

/-- The retry loop of `Server.ssh_connect`, with `fuel` remaining attempts
(`SSH_RETRY_LIMIT - retry_count`).  Each attempt assigns `self.connection`
(so `conn` becomes true even when the subsequent `open()` fails), then opens
the channel: on success it publishes `connection = True` and returns true; an
`SSHException` is caught and counted against the limit; any other exception
propagates.  On exhaustion it publishes `connection = False` and returns
false. -/
def sshConnectGo : Nat → St → Streams → M Bool
  | 0, st, s =>
    let sd2 := { st.sd with connection := some false }
    some (.ok false { st with sd := sd2 } s [Ev.snap sd2])
  | n + 1, st, s =>
    match s.conns with
    | [] => none
    | res :: rest =>
      let s2 := { s with conns := rest }
      let st2 := { st with conn := true }
      match res with
      | none =>
        let sd2 := { st2.sd with connection := some true }
        some (.ok true { st2 with sd := sd2 } s2 [Ev.connAttempt, Ev.snap sd2])
      | some PyErr.sshException =>
        M.withTrace [Ev.connAttempt] (sshConnectGo n st2 s2)
      | some e => some (.err e st2 s2 [Ev.connAttempt])

/-- `Server.ssh_connect`: up to `SSH_RETRY_LIMIT` attempts. -/
def ssh_connect (st : St) (s : Streams) : M Bool :=
  sshConnectGo SSH_RETRY_LIMIT st s

/-- The `while not self.ssh_connect()` loop of `Server.wait_for_connection`:
after a failed attempt batch it re-runs the reachability wait, sleeps
`SSH_RETRY_INTERVAL` seconds, and tries the batch again.  `fuel` bounds the
number of batches observed. -/
def wfcGo : Nat → St → Streams → M Unit
  | 0, _, _ => none
  | f + 1, st, s =>
    M.bind (ssh_connect st s) (fun ok st1 s1 =>
      if ok then some (.ok () st1 s1 [])
      else
        M.bind (wait_for_client_wakeup st1 s1) (fun _ st2 s2 =>
          M.withTrace [Ev.sleepEv SSH_RETRY_INTERVAL] (wfcGo f st2 s2)))

/-- `Server.wait_for_connection`: reachability wait, then connect batches
until one succeeds. -/
def wait_for_connection (fuel : Nat) (st : St) (s : Streams) : M Unit :=
  M.bind (wait_for_client_wakeup st s) (fun _ st1 s1 => wfcGo fuel st1 s1)

/-- The countdown loop of `Server.battery_loop` (`while time() <= shutdown_time`),
recursing on the clock-reading stream.  Each iteration reads the clock; while
within the deadline it reads the power source: on mains it writes
`shutdown_scheduled = False`, deletes `shutdown_timestamp` (two separate dict
writes, each snapshotted) and returns true; otherwise it sleeps the fast
countdown interval and repeats.  Once the clock passes the deadline it runs
`systemctl poweroff` over SSH (whose transport may raise), closes the
connection, sets it to `None`, sleeps 20 seconds and returns false. -/
def batteryDelay (cfg : ServerConfig) (deadline : Nat) :
    List Nat → St → Streams → M Bool
  | [], _, _ => none
  | t :: ts, st, s =>
    if t ≤ deadline then
      match s.powers with
      | [] => none
      | p :: ps =>
        let s2 := { s with powers := ps, times := ts }
        if p then
          let sd1 := { st.sd with shutdown_scheduled := some false }
          let sd2 := { sd1 with shutdown_timestamp := none }
          some (.ok true { st with sd := sd2 } s2
            [Ev.powerObs true, Ev.snap sd1, Ev.snap sd2])
        else
          M.withTrace
            [Ev.powerObs false,
              Ev.sleepEv cfg.BATTERY_CHECK_INTERVAL_DURING_SHUTDOWN]
            (batteryDelay cfg deadline ts st s2)
    else
      match s.cmds with
      | [] => none
      | c :: cs =>
        let s2 := { s with cmds := cs, times := ts }
        match c with
        | CmdRes.raise e => some (.err e st s2 [Ev.cmd "systemctl poweroff"])
        | CmdRes.out _ =>
          some (.ok false { st with conn := false } s2
            [Ev.cmd "systemctl poweroff", Ev.closeConn, Ev.sleepEv 20])

/-- `Server.battery_loop`: one power reading; on mains return true at once.
Otherwise read the clock for `start_time`, compute
`shutdown_time = start_time + SHUTDOWN_DELAY * 60`, write
`shutdown_scheduled = True` and then `shutdown_timestamp = shutdown_time`
(two separate dict writes, each snapshotted), and enter the countdown
loop. -/
def battery_loop (cfg : ServerConfig) (st : St) (s : Streams) : M Bool :=
  match s.powers with
  | [] => none
  | p :: ps =>
    let s1 := { s with powers := ps }
    if p then some (.ok true st s1 [Ev.powerObs true])
    else
      match s1.times with
      | [] => none
      | t0 :: ts =>
        let deadline := t0 + cfg.SHUTDOWN_DELAY * 60
        let sd1 := { st.sd with shutdown_scheduled := some true }
        let sd2 := { sd1 with shutdown_timestamp := some deadline }
        M.withTrace [Ev.powerObs false, Ev.snap sd1, Ev.snap sd2]
          (batteryDelay cfg deadline ts { st with sd := sd2 }
            { s1 with times := ts })

/-- One observation fed to a `stats_loop` tick: either the control channel
raised while running the status command, or it returned output `raw` whose
JSON parse is `parsed` (`none` = malformed, `json.loads` raises). -/
inductive TickObs where
  | chanErr (e : PyErr)
  | output (raw : String) (parsed : Option String)
deriving Repr, DecidableEq

/-- The exception classes named by `stats_loop`'s `except` clause:
`(SSHException, NoValidConnectionsError)`. -/
def stats_catches (e : PyErr) : Bool :=
  e == PyErr.sshException || e == PyErr.noValidConnections

/-- `Server.stats_loop`: one telemetry tick.  Runs the status command, parses
its output as JSON and publishes it into `shared_data["stats"]`; exceptions
are caught exactly when the `except` clause covers their class. -/
def stats_loop (sd : SharedData) (obs : TickObs) : Except PyErr SharedData :=
  match obs with
  | .chanErr e => if stats_catches e then Except.ok sd else Except.error e
  | .output _ parsed =>
    match parsed with
    | some j => Except.ok { sd with stats := some j }
    | none =>
      if stats_catches PyErr.jsonDecodeError then Except.ok sd
      else Except.error PyErr.jsonDecodeError

/-- The `while self.battery_loop(): sleep(BATTERY_CHECK_INTERVAL)` loop of
`Server.main`, with `fuel` bounding the number of iterations observed. -/
def batteryPhase (cfg : ServerConfig) : Nat → St → Streams → M Unit
  | 0, _, _ => none
  | f + 1, st, s =>
    M.bind (battery_loop cfg st s) (fun b st1 s1 =>
      if b then
        M.withTrace [Ev.sleepEv cfg.BATTERY_CHECK_INTERVAL]
          (batteryPhase cfg f st1 s1)
      else some (.ok () st1 s1 []))

/-- `Server.main`, unrolled for a given number of supervision cycles (the
source loops forever; running out of cycles returns with an empty remainder).
Each cycle: `wait_for_connection`; if `UI`, start the background stats loop
(`call_repeatedly`, recorded as `startStats`); run the battery loop until it
returns false; if `UI`, cancel the stats loop (`killStats`).  `inner` is the
fuel handed to the unbounded inner loops. -/
def mainCycles (cfg : ServerConfig) (inner : Nat) : Nat → St → Streams → M Unit
  | 0, st, s => some (.ok () st s [])
  | f + 1, st, s =>
    M.bind (wait_for_connection inner st s) (fun _ st1 s1 =>
      M.bind
        (M.withTrace (if cfg.UI then [Ev.startStats] else [])
          (batteryPhase cfg inner st1 s1)) (fun _ st2 s2 =>
        M.withTrace (if cfg.UI then [Ev.killStats] else [])
          (mainCycles cfg inner f st2 s2)))

/-- How `Server.run`'s modelled loop ended. -/
inductive RunExit where
  | interrupted
  | crashed (e : PyErr)
  | fuelOut
deriving Repr, DecidableEq

/-- The exception classes named by `run`'s first `except` clause:
`(SSHException, NoValidConnectionsError)`. -/
def run_catches (e : PyErr) : Bool :=
  e == PyErr.sshException || e == PyErr.noValidConnections

/-- `Server.run`: loops `main` forever; on a caught connection-class error it
closes any held connection, sets it to `None`, and re-enters `main`; on
`KeyboardInterrupt` it closes any held connection and returns.  `fuel`
bounds the number of restarts observed. -/
def runLoop (cfg : ServerConfig) (inner : Nat) :
    Nat → St → Streams → Option (RunExit × St × Streams × List Ev)
  | 0, st, s => some (RunExit.fuelOut, st, s, [])
  | f + 1, st, s =>
    match mainCycles cfg inner inner st s with
    | none => none
    | some (.ok _ st1 s1 tr1) => some (RunExit.fuelOut, st1, s1, tr1)
    | some (.err e st1 s1 tr1) =>
      if run_catches e then
        let closeTr := if st1.conn then [Ev.closeConn] else []
        match runLoop cfg inner f { st1 with conn := false } s1 with
        | none => none
        | some (x, st2, s2, tr2) => some (x, st2, s2, tr1 ++ closeTr ++ tr2)
      else if e = PyErr.keyboardInterrupt then
        let closeTr := if st1.conn then [Ev.closeConn] else []
        some (RunExit.interrupted, st1, s1, tr1 ++ closeTr)
      else some (RunExit.crashed e, st1, s1, tr1)

/-! ## Basic facts about the outcome monad -/

theorem M.withTrace_some {α : Type} (tr0 : List Ev) (o : Out α) :
    M.withTrace tr0 (some o) = some (Out.withTrace tr0 o) := rfl

theorem Out.trace_withTrace {α : Type} (tr0 : List Ev) (o : Out α) :
    (Out.withTrace tr0 o).trace = tr0 ++ o.trace := by
  cases o <;> rfl

theorem Out.stOf_withTrace {α : Type} (tr0 : List Ev) (o : Out α) :
    (Out.withTrace tr0 o).stOf = o.stOf := by
  cases o <;> rfl

theorem withTrace_eq_some {α : Type} {tr0 : List Ev} {m : M α} {o : Out α}
    (h : M.withTrace tr0 m = some o) :
    ∃ o0, m = some o0 ∧ o = Out.withTrace tr0 o0 := by
  cases m with
  | none => simp [M.withTrace] at h
  | some o0 =>
    refine ⟨o0, rfl, ?_⟩
    simpa [M.withTrace] using h.symm

theorem M.withTrace_withTrace {α : Type} (a b : List Ev) (m : M α) :
    M.withTrace a (M.withTrace b m) = M.withTrace (a ++ b) m := by
  cases m with
  | none => rfl
  | some o => cases o <;> simp [M.withTrace, Out.withTrace]

/-! ## The shared-status pair invariant (C1) -/

/-- The spec's field-presence invariant on a snapshot of the shared status:
`shutdown_scheduled == true` exactly when `shutdown_timestamp` is present. -/
def pairInvB (d : SharedData) : Bool :=
  (d.shutdown_scheduled == some true) == d.shutdown_timestamp.isSome

/-- The shared-dictionary states recorded by the write snapshots of a
trace, in write order. -/
def snapStates (tr : List Ev) : List SharedData :=
  tr.filterMap (fun e =>
    match e with
    | Ev.snap d => some d
    | _ => none)

/-- The write snapshots come in consecutive pairs and the state after the
second write of each pair satisfies the pair invariant. -/
def pairsComplete : List SharedData → Bool
  | [] => true
  | [_] => false
  | _ :: b :: r => pairInvB b && pairsComplete r

theorem snapStates_append (a b : List Ev) :
    snapStates (a ++ b) = snapStates a ++ snapStates b := by
  simp [snapStates]

/-! ## C8: countdown polling cadence vs. normal cadence -/

/-- C8 counterexample input: `Server(client, mac, data, battery_check_interval=1)`
is accepted by the constructor and makes the two cadences equal. -/
def c8cfg : ServerConfig := serverInit (some 1) none none none

/-- C8: the claim fails on the code.  The constructor accepts
`battery_check_interval = 1`, for which the countdown-time polling interval
(the fixed class constant `1`) is not strictly smaller than the normal
monitoring interval. -/
theorem C8_counterexample :
    ¬ (c8cfg.BATTERY_CHECK_INTERVAL_DURING_SHUTDOWN <
       c8cfg.BATTERY_CHECK_INTERVAL) := by decide

/-- C8 (amended): for every constructible configuration whose
`battery_check_interval` argument is either omitted or set above `1`, the
countdown polling interval is strictly smaller than the normal monitoring
interval.  (In particular this holds for the defaults, `1 < 5`.) -/
theorem C8_amended (b si sdl : Option Nat) (u : Option Bool)
    (hb : ∀ v, b = some v → 1 < v) :
    (serverInit b si sdl u).BATTERY_CHECK_INTERVAL_DURING_SHUTDOWN <
      (serverInit b si sdl u).BATTERY_CHECK_INTERVAL := by
  cases b with
  | none => simp [serverInit]
  | some v => simpa [serverInit] using hb v rfl

/-- C8 witness: the default configuration satisfies the amended claim. -/
theorem C8_amended_witness :
    (serverInit none none none none).BATTERY_CHECK_INTERVAL_DURING_SHUTDOWN <
      (serverInit none none none none).BATTERY_CHECK_INTERVAL :=
  C8_amended none none none none (fun v hv => by cases hv)

/-! ## C4: failure handling inside a telemetry tick -/

/-- C4 counterexample: a tick whose remote command succeeds but returns
output that does not parse as JSON makes `json.loads` raise
`JSONDecodeError`, which the `except (SSHException, NoValidConnectionsError)`
clause does not catch: the exception propagates out of `stats_loop` instead
of being swallowed. -/
theorem C4_counterexample :
    stats_loop emptyShared (TickObs.output "not json" none) =
      Except.error PyErr.jsonDecodeError := rfl

/-- C4 (amended): control-channel errors (`SSHException`,
`NoValidConnectionsError`) raised during a telemetry tick are swallowed
inside `stats_loop`, and any tick that returns normally leaves every
shared-status field except `stats` unchanged; but malformed (unparseable)
command output raises `JSONDecodeError`, which escapes `stats_loop`. -/
theorem C4_amended (sd : SharedData) :
    (∀ e, stats_catches e = true → stats_loop sd (TickObs.chanErr e) = Except.ok sd) ∧
    (∀ obs sd2, stats_loop sd obs = Except.ok sd2 →
      sd2.shutdown_scheduled = sd.shutdown_scheduled ∧
      sd2.shutdown_timestamp = sd.shutdown_timestamp ∧
      sd2.connection = sd.connection) ∧
    (∀ raw, stats_loop sd (TickObs.output raw none) =
      Except.error PyErr.jsonDecodeError) := by
  refine ⟨fun e he => by simp [stats_loop, he], ?_, fun raw => rfl⟩
  intro obs sd2 h
  cases obs with
  | chanErr e =>
    by_cases he : stats_catches e = true
    · simp [stats_loop, he] at h
      subst h
      exact ⟨rfl, rfl, rfl⟩
    · simp [stats_loop, he] at h
  | output raw parsed =>
    cases parsed with
    | none => simp [stats_loop, stats_catches] at h
    | some j =>
      simp [stats_loop] at h
      subst h
      exact ⟨rfl, rfl, rfl⟩

/-- C4 witness: a concrete swallowed control-channel error. -/
theorem C4_amended_witness :
    stats_loop emptyShared (TickObs.chanErr PyErr.sshException) =
      Except.ok emptyShared :=
  (C4_amended emptyShared).1 PyErr.sshException rfl

/-! ## C6: wake packets are sent only on observed mains power -/

/-- Checks that every wake-on-lan packet in a trace is emitted immediately
after an `on_mains_power` observation that returned `true`; a `wol` event
without such a guard fails the check. -/
def wolGuarded : List Ev → Bool
  | [] => true
  | Ev.powerObs true :: Ev.wol :: r => wolGuarded r
  | Ev.wol :: _ => false
  | _ :: r => wolGuarded r

theorem wakeupGo_wolGuarded :
    ∀ (pings powers pg pw : List Bool) (tr : List Ev),
      wakeupGo pings powers = some (pg, pw, tr) → wolGuarded tr = true := by
  intro pings
  induction pings with
  | nil => intro powers pg pw tr h; simp [wakeupGo] at h
  | cons alive pings ih =>
    intro powers pg pw tr h
    cases alive with
    | true =>
      simp [wakeupGo] at h
      obtain ⟨_, _, htr⟩ := h
      simp [← htr, wolGuarded]
    | false =>
      cases powers with
      | nil => simp [wakeupGo] at h
      | cons p powers2 =>
        cases powers2 with
        | nil => simp [wakeupGo] at h
        | cons p2 powers3 =>
          simp only [wakeupGo, Bool.false_eq_true, if_false] at h
          cases hrec : wakeupGo pings powers3 with
          | none => rw [hrec] at h; simp at h
          | some v =>
            obtain ⟨pg0, pw0, tr0⟩ := v
            rw [hrec] at h
            simp only [Option.some.injEq, Prod.mk.injEq] at h
            obtain ⟨h1, h2, htr⟩ := h
            have hg := ih powers3 pg0 pw0 tr0 hrec
            cases p with
            | true =>
              subst htr
              cases p2 <;> simpa [wolGuarded] using hg
            | false =>
              subst htr
              cases p2 <;> simpa [wolGuarded] using hg

/-- C6: for every sequence of reachability-probe results and power-source
observations, `wait_for_client_wakeup` sends a wake packet only immediately
after observing mains power; it never sends one while the power source is
observed non-mains. -/
theorem C6_wol_only_on_mains (st : St) (s : Streams) (out : Out Unit)
    (h : wait_for_client_wakeup st s = some out) :
    wolGuarded (Out.trace out) = true := by
  unfold wait_for_client_wakeup at h
  cases hgo : wakeupGo s.pings s.powers with
  | none => rw [hgo] at h; simp at h
  | some v =>
    obtain ⟨pg, pw, tr⟩ := v
    rw [hgo] at h
    simp only [Option.some.injEq] at h
    rw [← h]
    exact wakeupGo_wolGuarded s.pings s.powers pg pw tr hgo

/-- C6 witness: a concrete run (client unreachable once on mains power, then
alive) whose trace passes the guard check. -/
theorem C6_witness :
    wolGuarded (Out.trace (Out.ok () ⟨emptyShared, false⟩
      ⟨[], [], [], [], []⟩
      [Ev.pingObs false, Ev.powerObs true, Ev.wol, Ev.powerObs true,
        Ev.sleepEv WOL_PACKET_INTERVAL, Ev.pingObs true])) = true :=
  C6_wol_only_on_mains ⟨emptyShared, false⟩
    ⟨[false, true], [true, true], [], [], []⟩ _ rfl

/-! ## C1: the pair invariant across the shutdown scheduler's writes -/

theorem batteryDelay_pairs (cfg : ServerConfig) (deadline : Nat) :
    ∀ (ts : List Nat) (st : St) (s : Streams) (out : Out Bool),
      batteryDelay cfg deadline ts st s = some out →
      pairsComplete (snapStates (Out.trace out)) = true ∧
      (pairInvB st.sd = true → pairInvB (Out.stOf out).sd = true) := by
  intro ts
  induction ts with
  | nil => intro st s out h; simp [batteryDelay] at h
  | cons t ts ih =>
    intro st s out h
    simp only [batteryDelay] at h
    by_cases hd : t ≤ deadline
    · rw [if_pos hd] at h
      cases hp : s.powers with
      | nil => rw [hp] at h; simp at h
      | cons p ps =>
        rw [hp] at h
        cases p with
        | true =>
          simp only [if_pos, Option.some.injEq] at h
          subst h
          refine ⟨by simp [snapStates, pairsComplete, pairInvB, Out.trace], ?_⟩
          intro _
          simp [Out.stOf, pairInvB]
        | false =>
          simp only [Bool.false_eq_true, if_false] at h
          obtain ⟨o0, hrec, hout⟩ := withTrace_eq_some h
          obtain ⟨hpc, hinv⟩ := ih st _ o0 hrec
          subst hout
          rw [Out.trace_withTrace, Out.stOf_withTrace, snapStates_append]
          refine ⟨?_, hinv⟩
          simpa [snapStates] using hpc
    · rw [if_neg hd] at h
      cases hc : s.cmds with
      | nil => rw [hc] at h; simp at h
      | cons c cs =>
        rw [hc] at h
        cases c with
        | raise e =>
          simp only [Option.some.injEq] at h
          subst h
          exact ⟨by simp [snapStates, pairsComplete, Out.trace], fun hi => hi⟩
        | out o =>
          simp only [Option.some.injEq] at h
          subst h
          exact ⟨by simp [snapStates, pairsComplete, Out.trace], fun hi => hi⟩

/-- C1 counterexample streams: a power outage begins (`on_mains_power`
false) at clock 100, mains returns at the first countdown poll. -/
def c1streams : Streams := ⟨[], [false, true], [100, 150], [], []⟩

/-- The intermediate shared state after the first write of the
countdown-start pair: `shutdown_scheduled` already true, but
`shutdown_timestamp` not yet written. -/
def c1badState : SharedData :=
  { connection := none, shutdown_scheduled := some true,
    shutdown_timestamp := none, stats := none }

/-- The event trace of the C1 counterexample run of `battery_loop`. -/
def c1trace : List Ev :=
  match battery_loop cfgDefault ⟨emptyShared, true⟩ c1streams with
  | some out => Out.trace out
  | none => []

/-- C1: the claim fails on the code.  `battery_loop` writes the pair with
two separate dictionary assignments, so the run starting from an empty
shared dictionary passes through an observable snapshot (recorded right
after the `shared_data["shutdown_scheduled"] = True` write at countdown
start) at which `shutdown_scheduled` is true while `shutdown_timestamp` is
absent — a partial write of the pair. -/
theorem C1_counterexample :
    Ev.snap c1badState ∈ c1trace ∧ pairInvB c1badState = false := by decide

/-- C1 (amended): the pair is updated by two immediately-consecutive
dictionary writes (at countdown start and at abort); the invariant
`shutdown_scheduled == true ↔ shutdown_timestamp present` holds again at the
snapshot after the second write of each pair and at `battery_loop`'s final
shared state (whenever it held on entry), but between the two writes of a
pair there is one intermediate snapshot at which it can fail. -/
theorem C1_amended (cfg : ServerConfig) (st : St) (s : Streams) (out : Out Bool)
    (h : battery_loop cfg st s = some out) :
    pairsComplete (snapStates (Out.trace out)) = true ∧
    (pairInvB st.sd = true → pairInvB (Out.stOf out).sd = true) := by
  unfold battery_loop at h
  cases hp : s.powers with
  | nil => rw [hp] at h; simp at h
  | cons p ps =>
    rw [hp] at h
    cases p with
    | true =>
      simp only [if_pos, Option.some.injEq] at h
      subst h
      exact ⟨by simp [snapStates, pairsComplete, Out.trace], fun hi => hi⟩
    | false =>
      simp only [Bool.false_eq_true, if_false] at h
      cases ht : s.times with
      | nil =>
        simp only [ht] at h
        simp at h
      | cons t0 ts =>
        simp only [ht] at h
        obtain ⟨o0, hrec, hout⟩ := withTrace_eq_some h
        obtain ⟨hpc, hinv⟩ := batteryDelay_pairs cfg _ ts _ _ o0 hrec
        subst hout
        rw [Out.trace_withTrace, Out.stOf_withTrace, snapStates_append]
        constructor
        · simpa [snapStates, pairsComplete, pairInvB] using hpc
        · intro _
          exact hinv (by simp [pairInvB])

/-- C1 witness for the amended theorem: a run that observes mains power at
once leaves the shared state untouched and emits no writes. -/
theorem C1_amended_witness :
    pairsComplete (snapStates (Out.trace (Out.ok true (⟨emptyShared, true⟩ : St)
      (⟨[], [], [], [], []⟩ : Streams) [Ev.powerObs true]))) = true ∧
    (pairInvB emptyShared = true →
      pairInvB (Out.stOf (Out.ok true (⟨emptyShared, true⟩ : St)
        (⟨[], [], [], [], []⟩ : Streams) [Ev.powerObs true])).sd = true) :=
  C1_amended cfgDefault ⟨emptyShared, true⟩ ⟨[], [true], [], [], []⟩ _ rfl

/-! ## C2: aborting the countdown when mains power returns in time -/

/-- The shared state after the countdown-start write pair:
`shutdown_scheduled = True` and `shutdown_timestamp = dl`. -/
def armedPair (d : SharedData) (dl : Nat) : SharedData :=
  { d with shutdown_scheduled := some true, shutdown_timestamp := some dl }

/-- The shared state after the abort write pair: `shutdown_scheduled = False`
and `shutdown_timestamp` deleted. -/
def clearedPair (d : SharedData) : SharedData :=
  { d with shutdown_scheduled := some false, shutdown_timestamp := none }

theorem batteryDelay_abort (cfg : ServerConfig) (deadline : Nat) :
    ∀ (k : Nat) (ts : List Nat) (st : St) (s : Streams) (ps2 : List Bool),
      s.powers = List.replicate k false ++ true :: ps2 →
      (∀ t ∈ ts.take (k + 1), t ≤ deadline) →
      k + 1 ≤ ts.length →
      ∃ s2 tr, batteryDelay cfg deadline ts st s =
          some (Out.ok true { st with sd := clearedPair st.sd } s2 tr) ∧
        (∀ c, Ev.cmd c ∉ tr) := by
  intro k
  induction k with
  | zero =>
    intro ts st s ps2 hp ht hlen
    cases ts with
    | nil => simp at hlen
    | cons t ts2 =>
      have h1 : t ≤ deadline := ht t (by simp)
      simp only [List.replicate, List.nil_append] at hp
      refine ⟨{ s with powers := ps2, times := ts2 },
        [Ev.powerObs true,
          Ev.snap { st.sd with shutdown_scheduled := some false },
          Ev.snap (clearedPair st.sd)], ?_, ?_⟩
      · simp only [batteryDelay, if_pos h1]
        rw [hp]
        rfl
      · intro c
        simp
  | succ k ih =>
    intro ts st s ps2 hp ht hlen
    cases ts with
    | nil => simp at hlen
    | cons t ts2 =>
      have h1 : t ≤ deadline := ht t (by simp)
      simp only [List.replicate_succ, List.cons_append] at hp
      have ht2 : ∀ t2 ∈ ts2.take (k + 1), t2 ≤ deadline := by
        intro t2 hmem
        exact ht t2 (by simp [List.take_succ_cons, hmem])
      have hlen2 : k + 1 ≤ ts2.length := by
        simpa [Nat.succ_le_succ_iff] using hlen
      obtain ⟨s3, tr3, heq, hmem⟩ :=
        ih ts2 st
          { s with powers := List.replicate k false ++ true :: ps2, times := ts2 }
          ps2 rfl ht2 hlen2
      refine ⟨s3,
        [Ev.powerObs false,
          Ev.sleepEv cfg.BATTERY_CHECK_INTERVAL_DURING_SHUTDOWN] ++ tr3,
        ?_, ?_⟩
      · simp only [batteryDelay, if_pos h1]
        rw [hp]
        show M.withTrace _ (batteryDelay cfg deadline ts2 st _) = _
        rw [heq]
        rfl
      · intro c
        simp [hmem c]

/-- C2: if the power source is observed mains (`battery_loop` returns true
leaving everything untouched), then non-mains (starting a countdown), and
then mains again at a countdown poll taken while `time() <= shutdown_time`
still holds, no shutdown command is ever issued, `battery_loop` returns
true, `shutdown_scheduled` is set back to false, and `shutdown_timestamp`
is removed. -/
theorem C2_abort_before_deadline (cfg : ServerConfig) :
    (∀ (st : St) (s : Streams) (ps : List Bool), s.powers = true :: ps →
      battery_loop cfg st s =
        some (Out.ok true st { s with powers := ps } [Ev.powerObs true])) ∧
    (∀ (st : St) (s : Streams) (k t0 : Nat) (ts : List Nat) (ps2 : List Bool),
      s.powers = false :: (List.replicate k false ++ true :: ps2) →
      s.times = t0 :: ts →
      (∀ t ∈ ts.take (k + 1), t ≤ t0 + cfg.SHUTDOWN_DELAY * 60) →
      k + 1 ≤ ts.length →
      ∃ s2 tr, battery_loop cfg st s =
          some (Out.ok true { st with sd := clearedPair st.sd } s2 tr) ∧
        (∀ c, Ev.cmd c ∉ tr)) := by
  constructor
  · intro st s ps hp
    simp [battery_loop, hp]
  · intro st s k t0 ts ps2 hp hts ht hlen
    obtain ⟨s3, tr3, heq, hmem⟩ :=
      batteryDelay_abort cfg (t0 + cfg.SHUTDOWN_DELAY * 60) k ts
        { st with sd := armedPair st.sd (t0 + cfg.SHUTDOWN_DELAY * 60) }
        { s with powers := List.replicate k false ++ true :: ps2, times := ts }
        ps2 rfl ht hlen
    refine ⟨s3,
      [Ev.powerObs false,
        Ev.snap { st.sd with shutdown_scheduled := some true },
        Ev.snap (armedPair st.sd (t0 + cfg.SHUTDOWN_DELAY * 60))] ++ tr3,
      ?_, ?_⟩
    · simp only [armedPair, clearedPair] at heq
      simp only [battery_loop, hp]
      show (match s.times with
        | [] => none
        | t0 :: ts =>
          M.withTrace [Ev.powerObs false,
              Ev.snap { st.sd with shutdown_scheduled := some true },
              Ev.snap { { st.sd with shutdown_scheduled := some true } with
                shutdown_timestamp := some (t0 + cfg.SHUTDOWN_DELAY * 60) }]
            (batteryDelay cfg (t0 + cfg.SHUTDOWN_DELAY * 60) ts
              { st with sd := { { st.sd with shutdown_scheduled := some true } with
                  shutdown_timestamp := some (t0 + cfg.SHUTDOWN_DELAY * 60) } }
              { s with powers := List.replicate k false ++ true :: ps2,
                       times := ts })) = _
      rw [hts]
      show M.withTrace _ (batteryDelay cfg _ ts _ _) = _
      rw [heq]
      rfl
    · intro c
      simp [hmem c]

/-- C2 witness: outage at clock 100 with the default 4-minute grace period
(deadline 340), mains restored at the first countdown poll (clock 150). -/
theorem C2_witness :
    ∃ s2 tr, battery_loop cfgDefault ⟨emptyShared, true⟩
        ⟨[], [false, true], [100, 150], [], []⟩ =
        some (Out.ok true ⟨clearedPair emptyShared, true⟩ s2 tr) ∧
      (∀ c, Ev.cmd c ∉ tr) :=
  (C2_abort_before_deadline cfgDefault).2 ⟨emptyShared, true⟩
    ⟨[], [false, true], [100, 150], [], []⟩ 0 100 [150] [] rfl rfl
    (by decide) (by decide)

/-! ## C3: shutdown exactly once when power stays off past the deadline -/

theorem M.bind_withTrace {α β : Type} (t : List Ev) (m : M α)
    (f : α → St → Streams → M β) :
    M.bind (M.withTrace t m) f = M.withTrace t (M.bind m f) := by
  cases m with
  | none => rfl
  | some o =>
    cases o with
    | ok a st s tr =>
      show M.withTrace (t ++ tr) (f a st s) = M.withTrace t (M.withTrace tr (f a st s))
      rw [M.withTrace_withTrace]
    | err e st s tr => rfl

theorem batteryDelay_shutdown (cfg : ServerConfig) (deadline : Nat) :
    ∀ (j : Nat) (ts : List Nat) (st : St) (s : Streams) (ps2 : List Bool)
      (o : String) (cs : List CmdRes),
      s.powers = List.replicate j false ++ ps2 →
      s.cmds = CmdRes.out o :: cs →
      (∀ t ∈ ts.take j, t ≤ deadline) →
      ∀ hj : j < ts.length, deadline < ts.get ⟨j, hj⟩ →
      ∃ s2 trp, batteryDelay cfg deadline ts st s =
          some (Out.ok false { st with conn := false } s2
            (trp ++ [Ev.cmd "systemctl poweroff", Ev.closeConn, Ev.sleepEv 20])) ∧
        (∀ c, Ev.cmd c ∉ trp) ∧ snapStates trp = [] := by
  intro j
  induction j with
  | zero =>
    intro ts st s ps2 o cs hp hc ht hj hgt
    cases ts with
    | nil => simp at hj
    | cons t ts2 =>
      have h1 : ¬ t ≤ deadline := by
        simpa using Nat.not_le.mpr hgt
      refine ⟨{ s with cmds := cs, times := ts2 }, [], ?_, ?_, ?_⟩
      · simp only [batteryDelay, if_neg h1]
        rw [hc]
        rfl
      · intro c; simp
      · rfl
  | succ j ih =>
    intro ts st s ps2 o cs hp hc ht hj hgt
    cases ts with
    | nil => simp at hj
    | cons t ts2 =>
      have h1 : t ≤ deadline := ht t (by simp)
      simp only [List.replicate_succ, List.cons_append] at hp
      have ht2 : ∀ t2 ∈ ts2.take j, t2 ≤ deadline := by
        intro t2 hmem
        exact ht t2 (by simp [List.take_succ_cons, hmem])
      have hj2 : j < ts2.length := by
        simpa [Nat.succ_lt_succ_iff] using hj
      have hgt2 : deadline < ts2.get ⟨j, hj2⟩ := by
        simpa using hgt
      obtain ⟨s3, trp3, heq, hmem, hsnap⟩ :=
        ih ts2 st
          { s with powers := List.replicate j false ++ ps2, times := ts2 }
          ps2 o cs rfl hc ht2 hj2 hgt2
      refine ⟨s3,
        [Ev.powerObs false,
          Ev.sleepEv cfg.BATTERY_CHECK_INTERVAL_DURING_SHUTDOWN] ++ trp3,
        ?_, ?_, ?_⟩
      · simp only [batteryDelay, if_pos h1]
        rw [hp]
        show M.withTrace _ (batteryDelay cfg deadline ts2 st _) = _
        rw [heq]
        rfl
      · intro c
        simp [hmem c]
      · rw [snapStates_append, hsnap]
        simp [snapStates]

theorem batteryDelay_ok_false (cfg : ServerConfig) (deadline : Nat) :
    ∀ (ts : List Nat) (st st2 : St) (s s2 : Streams) (tr : List Ev),
      batteryDelay cfg deadline ts st s = some (Out.ok false st2 s2 tr) →
      st2 = { st with conn := false } ∧ snapStates tr = [] ∧
      tr.count (Ev.cmd "systemctl poweroff") = 1 := by
  intro ts
  induction ts with
  | nil => intro st st2 s s2 tr h; simp [batteryDelay] at h
  | cons t ts ih =>
    intro st st2 s s2 tr h
    simp only [batteryDelay] at h
    by_cases hd : t ≤ deadline
    · rw [if_pos hd] at h
      cases hp : s.powers with
      | nil => rw [hp] at h; simp at h
      | cons p ps =>
        rw [hp] at h
        cases p with
        | true => simp at h
        | false =>
          simp only [Bool.false_eq_true, if_false] at h
          obtain ⟨o0, hrec, hout⟩ := withTrace_eq_some h
          cases o0 with
          | err e st' s' tr' => simp [Out.withTrace] at hout
          | ok b st' s' tr' =>
            simp only [Out.withTrace] at hout
            injection hout with hb hst hs htr
            subst hb
            obtain ⟨h1, h2, h3⟩ := ih st st' _ s' tr' hrec
            subst hst hs htr
            refine ⟨h1, ?_, ?_⟩
            · rw [snapStates_append, h2]
              simp [snapStates]
            · simp [List.count_append, h3, List.count_cons]
    · rw [if_neg hd] at h
      cases hc : s.cmds with
      | nil => rw [hc] at h; simp at h
      | cons c cs =>
        rw [hc] at h
        cases c with
        | raise e => simp at h
        | out o =>
          injection h with h2
          injection h2 with hb hst hs htr
          subst hst hs htr
          refine ⟨rfl, by simp [snapStates], by decide⟩

theorem batteryDelay_ok_true (cfg : ServerConfig) (deadline : Nat) :
    ∀ (ts : List Nat) (st st2 : St) (s s2 : Streams) (tr : List Ev),
      batteryDelay cfg deadline ts st s = some (Out.ok true st2 s2 tr) →
      st2 = { st with sd := clearedPair st.sd } ∧ (∀ c, Ev.cmd c ∉ tr) := by
  intro ts
  induction ts with
  | nil => intro st st2 s s2 tr h; simp [batteryDelay] at h
  | cons t ts ih =>
    intro st st2 s s2 tr h
    simp only [batteryDelay] at h
    by_cases hd : t ≤ deadline
    · rw [if_pos hd] at h
      cases hp : s.powers with
      | nil => rw [hp] at h; simp at h
      | cons p ps =>
        rw [hp] at h
        cases p with
        | true =>
          simp only [if_pos] at h
          injection h with h2
          injection h2 with hb hst hs htr
          subst hst hs htr
          exact ⟨rfl, by intro c; simp⟩
        | false =>
          simp only [Bool.false_eq_true, if_false] at h
          obtain ⟨o0, hrec, hout⟩ := withTrace_eq_some h
          cases o0 with
          | err e st' s' tr' => simp [Out.withTrace] at hout
          | ok b st' s' tr' =>
            simp only [Out.withTrace] at hout
            injection hout with hb hst hs htr
            subst hb
            obtain ⟨h1, h2⟩ := ih st st' _ s' tr' hrec
            subst hst hs htr
            refine ⟨h1, ?_⟩
            intro c
            simp [h2 c]
    · rw [if_neg hd] at h
      cases hc : s.cmds with
      | nil => rw [hc] at h; simp at h
      | cons c cs =>
        rw [hc] at h
        cases c with
        | raise e => simp at h
        | out o => simp at h

theorem wait_for_connection_eq (inner : Nat) (st st1 : St) (s s1 : Streams)
    (tr1 : List Ev)
    (hwk : wait_for_client_wakeup st s = some (Out.ok () st1 s1 tr1)) :
    wait_for_connection inner st s = M.withTrace tr1 (wfcGo inner st1 s1) := by
  show M.bind (wait_for_client_wakeup st s) _ = _
  rw [hwk]
  rfl

theorem mainCycles_cycle (cfg : ServerConfig) (inner f : Nat) (st st1 st2 : St)
    (s s1 s2 : Streams) (tr1 tr2 : List Ev)
    (hwfc : wait_for_connection inner st s = some (Out.ok () st1 s1 tr1))
    (hbp : batteryPhase cfg inner st1 s1 = some (Out.ok () st2 s2 tr2)) :
    mainCycles cfg inner (f + 1) st s =
      M.withTrace (tr1 ++ ((if cfg.UI then [Ev.startStats] else []) ++ tr2 ++
        (if cfg.UI then [Ev.killStats] else [])))
        (mainCycles cfg inner f st2 s2) := by
  show M.bind (wait_for_connection inner st s) _ = _
  rw [hwfc]
  show M.withTrace tr1
    (M.bind (M.withTrace _ (batteryPhase cfg inner st1 s1)) _) = _
  rw [hbp]
  show M.withTrace tr1
    (M.withTrace ((if cfg.UI then [Ev.startStats] else []) ++ tr2)
      (M.withTrace (if cfg.UI then [Ev.killStats] else [])
        (mainCycles cfg inner f st2 s2))) = _
  rw [M.withTrace_withTrace, M.withTrace_withTrace]
  simp [List.append_assoc]

theorem mainCycles_cycle_err (cfg : ServerConfig) (inner f : Nat)
    (st st1 st2 : St) (s s1 s2 : Streams) (tr1 tr2 : List Ev) (e : PyErr)
    (hwfc : wait_for_connection inner st s = some (Out.ok () st1 s1 tr1))
    (hbp : batteryPhase cfg inner st1 s1 = some (Out.err e st2 s2 tr2)) :
    mainCycles cfg inner (f + 1) st s =
      some (Out.err e st2 s2
        (tr1 ++ ((if cfg.UI then [Ev.startStats] else []) ++ tr2))) := by
  show M.bind (wait_for_connection inner st s) _ = _
  rw [hwfc]
  show M.withTrace tr1
    (M.bind (M.withTrace _ (batteryPhase cfg inner st1 s1)) _) = _
  rw [hbp]
  rfl

/-- C3: if the power source stays non-mains from countdown start until the
clock passes the deadline `start_time + SHUTDOWN_DELAY * 60`, exactly one
remote shutdown command (`systemctl poweroff`) is issued, after which the
connection is closed and set to `None`, `battery_loop` returns false, and
the outer loop of `main` re-enters `wait_for_connection` (its reachability
wait being the next events after the battery phase and the stats-loop
cancellation). -/
theorem C3_shutdown_after_deadline (cfg : ServerConfig) :
    (∀ (st : St) (s : Streams) (j t0 : Nat) (ts : List Nat) (ps2 : List Bool)
        (o : String) (cs : List CmdRes),
      s.powers = false :: (List.replicate j false ++ ps2) →
      s.times = t0 :: ts →
      s.cmds = CmdRes.out o :: cs →
      (∀ t ∈ ts.take j, t ≤ t0 + cfg.SHUTDOWN_DELAY * 60) →
      ∀ hj : j < ts.length, t0 + cfg.SHUTDOWN_DELAY * 60 < ts.get ⟨j, hj⟩ →
      ∃ s2 trp, battery_loop cfg st s =
          some (Out.ok false
            (St.mk (armedPair st.sd (t0 + cfg.SHUTDOWN_DELAY * 60)) false)
            s2 (trp ++ [Ev.cmd "systemctl poweroff", Ev.closeConn, Ev.sleepEv 20])) ∧
        (∀ c, Ev.cmd c ∉ trp) ∧
        (trp ++ [Ev.cmd "systemctl poweroff", Ev.closeConn,
          Ev.sleepEv 20]).count (Ev.cmd "systemctl poweroff") = 1) ∧
    (∀ (inner f : Nat) (st st1 st2 st3 : St) (s s1 s2 s3 : Streams)
        (tr1 tr2 tr3 : List Ev),
      wait_for_connection inner st s = some (Out.ok () st1 s1 tr1) →
      batteryPhase cfg inner st1 s1 = some (Out.ok () st2 s2 tr2) →
      wait_for_client_wakeup st2 s2 = some (Out.ok () st3 s3 tr3) →
      ∃ m, mainCycles cfg inner (f + 2) st s =
        M.withTrace (tr1 ++ (if cfg.UI then [Ev.startStats] else []) ++ tr2 ++
          (if cfg.UI then [Ev.killStats] else []) ++ tr3) m) := by
  constructor
  · intro st s j t0 ts ps2 o cs hp hts hc ht hj hgt
    obtain ⟨s3, trp3, heq, hmem, hsnap⟩ :=
      batteryDelay_shutdown cfg (t0 + cfg.SHUTDOWN_DELAY * 60) j ts
        { st with sd := armedPair st.sd (t0 + cfg.SHUTDOWN_DELAY * 60) }
        { s with powers := List.replicate j false ++ ps2, times := ts }
        ps2 o cs rfl hc ht hj hgt
    refine ⟨s3,
      [Ev.powerObs false,
        Ev.snap { st.sd with shutdown_scheduled := some true },
        Ev.snap (armedPair st.sd (t0 + cfg.SHUTDOWN_DELAY * 60))] ++ trp3,
      ?_, ?_, ?_⟩
    · simp only [armedPair] at heq
      simp only [battery_loop, hp]
      show (match s.times with
        | [] => none
        | t0 :: ts =>
          M.withTrace [Ev.powerObs false,
              Ev.snap { st.sd with shutdown_scheduled := some true },
              Ev.snap { { st.sd with shutdown_scheduled := some true } with
                shutdown_timestamp := some (t0 + cfg.SHUTDOWN_DELAY * 60) }]
            (batteryDelay cfg (t0 + cfg.SHUTDOWN_DELAY * 60) ts
              { st with sd := { { st.sd with shutdown_scheduled := some true } with
                  shutdown_timestamp := some (t0 + cfg.SHUTDOWN_DELAY * 60) } }
              { s with powers := List.replicate j false ++ ps2,
                       times := ts })) = _
      rw [hts]
      show M.withTrace _ (batteryDelay cfg _ ts _ _) = _
      rw [heq]
      simp [M.withTrace, Out.withTrace, armedPair]
    · intro c
      simp [hmem c]
    · have h0 : trp3.count (Ev.cmd "systemctl poweroff") = 0 :=
        List.count_eq_zero.mpr (hmem _)
      simp [List.count_append, List.count_cons, h0]
  · intro inner f st st1 st2 st3 s s1 s2 s3 tr1 tr2 tr3 hwfc hbp hwk
    have e1 := mainCycles_cycle cfg inner (f + 1) st st1 st2 s s1 s2 tr1 tr2 hwfc hbp
    have e2 : mainCycles cfg inner (f + 1) st2 s2 =
        M.withTrace tr3 (M.bind (wfcGo inner st3 s3) (fun _ stA sA =>
          M.bind (M.withTrace (if cfg.UI then [Ev.startStats] else [])
            (batteryPhase cfg inner stA sA)) (fun _ stB sB =>
            M.withTrace (if cfg.UI then [Ev.killStats] else [])
              (mainCycles cfg inner f stB sB)))) := by
      show M.bind (wait_for_connection inner st2 s2) _ = _
      rw [wait_for_connection_eq inner st2 st3 s2 s3 tr3 hwk, M.bind_withTrace]
    refine ⟨M.bind (wfcGo inner st3 s3) (fun _ stA sA =>
      M.bind (M.withTrace (if cfg.UI then [Ev.startStats] else [])
        (batteryPhase cfg inner stA sA)) (fun _ stB sB =>
        M.withTrace (if cfg.UI then [Ev.killStats] else [])
          (mainCycles cfg inner f stB sB))), ?_⟩
    show mainCycles cfg inner (f + 1 + 1) st s = _
    rw [e1, e2, M.withTrace_withTrace]
    simp [List.append_assoc]

/-- C3 witness: outage at clock 100 (deadline 340), a countdown poll at 150
still without power, the next clock reading 999 past the deadline;
`battery_loop` issues exactly one shutdown command, closes the handle and
returns false. -/
theorem C3_witness :
    ∃ s2 trp, battery_loop cfgDefault ⟨emptyShared, true⟩
        ⟨[], [false, false], [100, 150, 999], [], [CmdRes.out ""]⟩ =
        some (Out.ok false
          ⟨armedPair emptyShared 340, false⟩
          s2 (trp ++ [Ev.cmd "systemctl poweroff", Ev.closeConn, Ev.sleepEv 20])) ∧
      (∀ c, Ev.cmd c ∉ trp) ∧
      (trp ++ [Ev.cmd "systemctl poweroff", Ev.closeConn,
        Ev.sleepEv 20]).count (Ev.cmd "systemctl poweroff") = 1 :=
  (C3_shutdown_after_deadline cfgDefault).1 ⟨emptyShared, true⟩
    ⟨[], [false, false], [100, 150, 999], [], [CmdRes.out ""]⟩ 1 100 [150, 999]
    [] "" [] rfl rfl rfl (by decide) (by decide) (by decide)

/-! ## Trace predicates -/

/-- Every event of every trace the computation can produce satisfies `P`. -/
def TraceAll {α : Type} (P : Ev → Prop) (m : M α) : Prop :=
  ∀ o, m = some o → ∀ e ∈ Out.trace o, P e

theorem TraceAll_none {α : Type} (P : Ev → Prop) : TraceAll P (none : M α) := by
  intro o h
  simp at h

theorem TraceAll_withTrace {α : Type} (P : Ev → Prop) (tr0 : List Ev) (m : M α)
    (h0 : ∀ e ∈ tr0, P e) (hm : TraceAll P m) :
    TraceAll P (M.withTrace tr0 m) := by
  intro o h
  obtain ⟨o0, ho0, rfl⟩ := withTrace_eq_some h
  intro e he
  rw [Out.trace_withTrace] at he
  rcases List.mem_append.mp he with h1 | h2
  · exact h0 e h1
  · exact hm o0 ho0 e h2

theorem TraceAll_bind {α β : Type} (P : Ev → Prop) (m : M α)
    (f : α → St → Streams → M β) (hm : TraceAll P m)
    (hf : ∀ a st s, TraceAll P (f a st s)) : TraceAll P (M.bind m f) := by
  cases m with
  | none => exact fun o h => by simp [M.bind] at h
  | some o0 =>
    cases o0 with
    | err e st s tr =>
      intro o h
      injection h with h2
      rw [← h2]
      exact hm _ rfl
    | ok a st s tr =>
      show TraceAll P (M.withTrace tr (f a st s))
      exact TraceAll_withTrace P tr _ (fun e he => hm _ rfl e he) (hf a st s)

/-- The event is not a cancellation of the background stats loop. -/
def NoKill (e : Ev) : Prop := e ≠ Ev.killStats

theorem wakeupGo_noKill :
    ∀ (pings powers pg pw : List Bool) (tr : List Ev),
      wakeupGo pings powers = some (pg, pw, tr) → ∀ e ∈ tr, NoKill e := by
  intro pings
  induction pings with
  | nil => intro powers pg pw tr h; simp [wakeupGo] at h
  | cons alive pings ih =>
    intro powers pg pw tr h
    cases alive with
    | true =>
      simp [wakeupGo] at h
      obtain ⟨_, _, htr⟩ := h
      intro e he hk
      subst hk
      rw [← htr] at he
      simp [Out.trace] at he
    | false =>
      cases powers with
      | nil => simp [wakeupGo] at h
      | cons p powers2 =>
        cases powers2 with
        | nil => simp [wakeupGo] at h
        | cons p2 powers3 =>
          simp only [wakeupGo, Bool.false_eq_true, if_false] at h
          cases hrec : wakeupGo pings powers3 with
          | none => rw [hrec] at h; simp at h
          | some v =>
            obtain ⟨pg0, pw0, tr0⟩ := v
            rw [hrec] at h
            simp only [Option.some.injEq, Prod.mk.injEq] at h
            obtain ⟨h1, h2, htr⟩ := h
            have hg := ih powers3 pg0 pw0 tr0 hrec
            subst htr
            cases p with
            | true =>
              intro e he hk
              subst hk
              simp [Out.trace] at he
              exact hg _ he rfl
            | false =>
              intro e he hk
              subst hk
              simp [Out.trace] at he
              exact hg _ he rfl

theorem wait_for_client_wakeup_noKill (st : St) (s : Streams) :
    TraceAll NoKill (wait_for_client_wakeup st s) := by
  unfold wait_for_client_wakeup
  cases hgo : wakeupGo s.pings s.powers with
  | none => exact TraceAll_none NoKill
  | some v =>
    obtain ⟨pg, pw, tr⟩ := v
    intro o h
    injection h with h2
    rw [← h2]
    exact wakeupGo_noKill s.pings s.powers pg pw tr hgo

theorem sshConnectGo_noKill : ∀ (n : Nat) (st : St) (s : Streams),
    TraceAll NoKill (sshConnectGo n st s) := by
  intro n
  induction n with
  | zero =>
    intro st s o h
    injection h with h2
    rw [← h2]
    intro e he hk
    subst hk
    simp [Out.trace] at he
  | succ n ih =>
    intro st s
    show TraceAll NoKill (match s.conns with
      | [] => none
      | res :: rest => _)
    cases s.conns with
    | nil => exact TraceAll_none NoKill
    | cons res rest =>
      cases res with
      | none =>
        intro o h
        injection h with h2
        rw [← h2]
        intro e he hk
        subst hk
        simp [Out.trace] at he
      | some e0 =>
        cases e0 with
        | sshException =>
          exact TraceAll_withTrace NoKill [Ev.connAttempt] _
            (by intro e he hk; subst hk; simp [Out.trace] at he) (ih _ _)
        | noValidConnections =>
          intro o h
          injection h with h2
          rw [← h2]
          intro e he hk
          subst hk
          simp [Out.trace] at he
        | jsonDecodeError =>
          intro o h
          injection h with h2
          rw [← h2]
          intro e he hk
          subst hk
          simp [Out.trace] at he
        | keyboardInterrupt =>
          intro o h
          injection h with h2
          rw [← h2]
          intro e he hk
          subst hk
          simp [Out.trace] at he

theorem wfcGo_noKill : ∀ (f : Nat) (st : St) (s : Streams),
    TraceAll NoKill (wfcGo f st s) := by
  intro f
  induction f with
  | zero => intro st s; exact TraceAll_none NoKill
  | succ f ih =>
    intro st s
    show TraceAll NoKill (M.bind (ssh_connect st s) _)
    refine TraceAll_bind NoKill _ _ (sshConnectGo_noKill _ st s) ?_
    intro a st1 s1
    cases a with
    | true =>
      intro o h
      injection h with h2
      rw [← h2]
      intro e he hk
      subst hk
      simp [Out.trace] at he
    | false =>
      show TraceAll NoKill (M.bind (wait_for_client_wakeup st1 s1) _)
      refine TraceAll_bind NoKill _ _ (wait_for_client_wakeup_noKill st1 s1) ?_
      intro a2 st2 s2
      refine TraceAll_withTrace NoKill _ _ ?_ (ih st2 s2)
      intro e he hk
      subst hk
      simp [Out.trace] at he

theorem wait_for_connection_noKill (inner : Nat) (st : St) (s : Streams) :
    TraceAll NoKill (wait_for_connection inner st s) := by
  show TraceAll NoKill (M.bind (wait_for_client_wakeup st s) _)
  exact TraceAll_bind NoKill _ _ (wait_for_client_wakeup_noKill st s)
    (fun a st1 s1 => wfcGo_noKill inner st1 s1)

theorem batteryDelay_noKill (cfg : ServerConfig) (deadline : Nat) :
    ∀ (ts : List Nat) (st : St) (s : Streams),
      TraceAll NoKill (batteryDelay cfg deadline ts st s) := by
  intro ts
  induction ts with
  | nil => intro st s; exact TraceAll_none NoKill
  | cons t ts ih =>
    intro st s
    show TraceAll NoKill (if t ≤ deadline then _ else _)
    by_cases hd : t ≤ deadline
    · rw [if_pos hd]
      cases s.powers with
      | nil => exact TraceAll_none NoKill
      | cons p ps =>
        cases p with
        | true =>
          intro o h
          injection h with h2
          rw [← h2]
          intro e he hk
          subst hk
          simp [Out.trace] at he
        | false =>
          show TraceAll NoKill (M.withTrace _ _)
          refine TraceAll_withTrace NoKill _ _ ?_ (ih st _)
          intro e he hk
          subst hk
          simp [Out.trace] at he
    · rw [if_neg hd]
      cases s.cmds with
      | nil => exact TraceAll_none NoKill
      | cons c cs =>
        cases c with
        | raise e0 =>
          intro o h
          injection h with h2
          rw [← h2]
          intro e he hk
          subst hk
          simp [Out.trace] at he
        | out o0 =>
          intro o h
          injection h with h2
          rw [← h2]
          intro e he hk
          subst hk
          simp [Out.trace] at he

theorem battery_loop_noKill (cfg : ServerConfig) (st : St) (s : Streams) :
    TraceAll NoKill (battery_loop cfg st s) := by
  show TraceAll NoKill (match s.powers with
    | [] => none
    | p :: ps => _)
  cases s.powers with
  | nil => exact TraceAll_none NoKill
  | cons p ps =>
    cases p with
    | true =>
      intro o h
      injection h with h2
      rw [← h2]
      intro e he hk
      subst hk
      simp [Out.trace] at he
    | false =>
      cases ({ s with powers := ps } : Streams).times with
      | nil => exact TraceAll_none NoKill
      | cons t0 ts =>
        refine TraceAll_withTrace NoKill _ _ ?_ (batteryDelay_noKill cfg _ ts _ _)
        intro e he hk
        subst hk
        simp [Out.trace] at he

theorem batteryPhase_noKill (cfg : ServerConfig) :
    ∀ (f : Nat) (st : St) (s : Streams),
      TraceAll NoKill (batteryPhase cfg f st s) := by
  intro f
  induction f with
  | zero => intro st s; exact TraceAll_none NoKill
  | succ f ih =>
    intro st s
    show TraceAll NoKill (M.bind (battery_loop cfg st s) _)
    refine TraceAll_bind NoKill _ _ (battery_loop_noKill cfg st s) ?_
    intro b st1 s1
    cases b with
    | true =>
      refine TraceAll_withTrace NoKill _ _ ?_ (ih st1 s1)
      intro e he hk
      subst hk
      simp [Out.trace] at he
    | false =>
      intro o h
      injection h with h2
      rw [← h2]
      intro e he
      simp [Out.trace] at he

/-! ## C5: cancellation of the telemetry poller at cycle end -/

/-- C5 counterexample oracle streams: two supervision cycles; in each, the
client answers the first ping, the SSH connect succeeds at once, a power
outage is detected (clock 0, deadline 240), the next clock reading 999 is
past the deadline, and the shutdown command's transport raises
`SSHException`. -/
def c5streams : Streams :=
  ⟨[true, true], [false, false], [0, 999, 0, 999], [none, none],
    [CmdRes.raise PyErr.sshException, CmdRes.raise PyErr.sshException]⟩

/-- The event trace of the C5 counterexample run of `Server.run` (two main
restarts observed). -/
def c5trace : List Ev :=
  match runLoop cfgDefault 5 2 ⟨emptyShared, false⟩ c5streams with
  | some (_, _, _, tr) => tr
  | none => []

/-- C5: the claim fails on the code.  When a connection-class error escapes
`battery_loop` (here: the `systemctl poweroff` transport raising
`SSHException`), the exception unwinds `main` past the `kill_stats_loop()`
call; `run` catches it and re-enters `wait_for_connection`, so two cycles
each start a stats poller (`startStats` twice, one connect per pass) yet
`kill_stats_loop` is never invoked (`killStats` count zero). -/
theorem C5_counterexample :
    c5trace.count Ev.killStats = 0 ∧ c5trace.count Ev.startStats = 2 ∧
    c5trace.count Ev.connAttempt = 2 := by decide

/-- C5 (amended): on the normal completed-shutdown path (`battery_loop`
returns false without raising), `kill_stats_loop` is invoked before the next
connection-supervisor pass begins; but when a connection-class error escapes
the battery phase, the cycle ends in the propagating exception with no
`killStats` event anywhere in its trace — the poller started for that cycle
is never cancelled. -/
theorem C5_amended (cfg : ServerConfig) :
    (∀ (inner f : Nat) (st st1 st2 : St) (s s1 s2 : Streams) (tr1 tr2 : List Ev),
      cfg.UI = true →
      wait_for_connection inner st s = some (Out.ok () st1 s1 tr1) →
      batteryPhase cfg inner st1 s1 = some (Out.ok () st2 s2 tr2) →
      mainCycles cfg inner (f + 1) st s =
        M.withTrace (tr1 ++ (Ev.startStats :: tr2 ++ [Ev.killStats]))
          (mainCycles cfg inner f st2 s2)) ∧
    (∀ (inner f : Nat) (st st1 st2 : St) (s s1 s2 : Streams) (tr1 tr2 : List Ev)
        (e : PyErr),
      cfg.UI = true →
      wait_for_connection inner st s = some (Out.ok () st1 s1 tr1) →
      batteryPhase cfg inner st1 s1 = some (Out.err e st2 s2 tr2) →
      mainCycles cfg inner (f + 1) st s =
        some (Out.err e st2 s2 (tr1 ++ (Ev.startStats :: tr2))) ∧
      Ev.killStats ∉ tr1 ++ (Ev.startStats :: tr2)) := by
  constructor
  · intro inner f st st1 st2 s s1 s2 tr1 tr2 hUI hwfc hbp
    rw [mainCycles_cycle cfg inner f st st1 st2 s s1 s2 tr1 tr2 hwfc hbp, hUI]
    simp
  · intro inner f st st1 st2 s s1 s2 tr1 tr2 e hUI hwfc hbp
    constructor
    · rw [mainCycles_cycle_err cfg inner f st st1 st2 s s1 s2 tr1 tr2 e hwfc hbp,
        hUI]
      simp
    · intro hmem
      rcases List.mem_append.mp hmem with h1 | h2
      · exact wait_for_connection_noKill inner st s _ hwfc Ev.killStats h1 rfl
      · rcases List.mem_cons.mp h2 with h3 | h4
        · exact absurd h3 (by simp)
        · exact batteryPhase_noKill cfg inner st1 s1 _ hbp Ev.killStats h4 rfl

/-- The shared state right after a successful connect from a fresh start. -/
def c5wSd0 : SharedData := ⟨some true, none, none, none⟩

/-- The shared state after the countdown-start first write in the C5
witness run. -/
def c5wSd1 : SharedData := ⟨some true, some true, none, none⟩

/-- The shared state after the countdown-start second write (deadline 240)
in the C5 witness run. -/
def c5wSd2 : SharedData := ⟨some true, some true, some 240, none⟩

/-- C5 witness streams: one cycle that runs to a completed shutdown. -/
def c5wStreams : Streams :=
  ⟨[true], [false, false], [0, 999], [none], [CmdRes.out ""]⟩

/-- C5 witness: the completed-shutdown cycle emits `killStats` right after
the battery phase and before the recursive `main` iteration. -/
theorem C5_amended_witness :
    mainCycles cfgDefault 5 1 ⟨emptyShared, false⟩ c5wStreams =
      M.withTrace ([Ev.pingObs true, Ev.connAttempt, Ev.snap c5wSd0] ++
        (Ev.startStats :: [Ev.powerObs false, Ev.snap c5wSd1, Ev.snap c5wSd2,
          Ev.cmd "systemctl poweroff", Ev.closeConn, Ev.sleepEv 20] ++
          [Ev.killStats]))
        (mainCycles cfgDefault 5 0 ⟨c5wSd2, false⟩ ⟨[], [false], [], [], []⟩) :=
  (C5_amended cfgDefault).1 5 0 ⟨emptyShared, false⟩ ⟨c5wSd0, true⟩
    ⟨c5wSd2, false⟩ c5wStreams ⟨[], [false, false], [0, 999], [], [CmdRes.out ""]⟩
    ⟨[], [false], [], [], []⟩ [Ev.pingObs true, Ev.connAttempt, Ev.snap c5wSd0]
    [Ev.powerObs false, Ev.snap c5wSd1, Ev.snap c5wSd2,
      Ev.cmd "systemctl poweroff", Ev.closeConn, Ev.sleepEv 20] rfl rfl rfl

/-! ## C7: SSH retry exhaustion and the supervisor's restart -/

/-- C7: if the channel-open call raises `SSHException` on all
`SSH_RETRY_LIMIT = 5` consecutive tries, `ssh_connect` publishes
`shared_data["connection"] = False` and returns false; `wait_for_connection`
then re-runs the reachability wait (`wait_for_client_wakeup`), sleeps the
fixed `SSH_RETRY_INTERVAL` back-off, and only then starts the next connect
batch — it neither retries the connect step indefinitely nor treats
exhaustion as fatal. -/
theorem C7_retry_exhaustion :
    (∀ (st : St) (s : Streams) (rest : List (Option PyErr)),
      s.conns = List.replicate 5 (some PyErr.sshException) ++ rest →
      ssh_connect st s = some (Out.ok false
        (St.mk { st.sd with connection := some false } true)
        { s with conns := rest }
        (List.replicate 5 Ev.connAttempt ++
          [Ev.snap { st.sd with connection := some false }]))) ∧
    (∀ (f : Nat) (st st1 st2 : St) (s s1 s2 : Streams) (tr1 tr2 : List Ev),
      ssh_connect st s = some (Out.ok false st1 s1 tr1) →
      wait_for_client_wakeup st1 s1 = some (Out.ok () st2 s2 tr2) →
      wfcGo (f + 1) st s =
        M.withTrace (tr1 ++ tr2 ++ [Ev.sleepEv SSH_RETRY_INTERVAL])
          (wfcGo f st2 s2)) := by
  constructor
  · intro st s rest hconns
    obtain ⟨pg, pw, tm, cn, cm⟩ := s
    simp only at hconns
    subst hconns
    rfl
  · intro f st st1 st2 s s1 s2 tr1 tr2 hssh hwk
    show M.bind (ssh_connect st s) _ = _
    rw [hssh]
    show M.withTrace tr1 (M.bind (wait_for_client_wakeup st1 s1) _) = _
    rw [hwk]
    show M.withTrace tr1 (M.withTrace tr2
      (M.withTrace [Ev.sleepEv SSH_RETRY_INTERVAL] (wfcGo f st2 s2))) = _
    rw [M.withTrace_withTrace, M.withTrace_withTrace]

/-- C7 witness: five concrete `SSHException` failures publish
`connection = False` and return false. -/
theorem C7_witness :
    ssh_connect ⟨emptyShared, false⟩
      ⟨[], [], [], List.replicate 5 (some PyErr.sshException), []⟩ =
      some (Out.ok false
        (St.mk { emptyShared with connection := some false } true)
        ⟨[], [], [], [], []⟩
        (List.replicate 5 Ev.connAttempt ++
          [Ev.snap { emptyShared with connection := some false }])) :=
  (C7_retry_exhaustion).1 ⟨emptyShared, false⟩
    ⟨[], [], [], List.replicate 5 (some PyErr.sshException), []⟩ [] (by simp)

/-! ## C10: NoValidConnectionsError escapes ssh_connect to run -/

/-- C10: a `NoValidConnectionsError` from the channel-open call is not
caught by `ssh_connect`'s `except SSHException` clause: it propagates after
the first attempt without consuming further retries, escapes the whole
supervision cycle, and `run` handles it — closing the held connection,
setting it to `None`, and restarting the entire cycle (the continuation is
the `runLoop` recursion, which begins again at `wait_for_connection`). -/
theorem C10_nvce_escapes :
    (∀ (st : St) (s : Streams) (rest : List (Option PyErr)),
      s.conns = some PyErr.noValidConnections :: rest →
      ssh_connect st s = some (Out.err PyErr.noValidConnections
        (St.mk st.sd true) { s with conns := rest } [Ev.connAttempt])) ∧
    run_catches PyErr.noValidConnections = true ∧
    (∀ (cfg : ServerConfig) (inner f : Nat) (st st1 st2 : St)
        (s s1 s2 : Streams) (tr1 tr2 : List Ev) (e : PyErr) (x : RunExit),
      mainCycles cfg inner inner st s = some (Out.err e st1 s1 tr1) →
      run_catches e = true →
      st1.conn = true →
      runLoop cfg inner f (St.mk st1.sd false) s1 = some (x, st2, s2, tr2) →
      runLoop cfg inner (f + 1) st s =
        some (x, st2, s2, tr1 ++ [Ev.closeConn] ++ tr2)) := by
  refine ⟨?_, rfl, ?_⟩
  · intro st s rest hconns
    obtain ⟨pg, pw, tm, cn, cm⟩ := s
    simp only at hconns
    subst hconns
    rfl
  · intro cfg inner f st st1 st2 s s1 s2 tr1 tr2 e x hmain hcat hconn hrec
    show (match mainCycles cfg inner inner st s with
      | none => none
      | some (.ok _ st1 s1 tr1) => some (RunExit.fuelOut, st1, s1, tr1)
      | some (.err e st1 s1 tr1) =>
        if run_catches e then
          let closeTr := if st1.conn then [Ev.closeConn] else []
          match runLoop cfg inner f { st1 with conn := false } s1 with
          | none => none
          | some (x, st2, s2, tr2) => some (x, st2, s2, tr1 ++ closeTr ++ tr2)
        else if e = PyErr.keyboardInterrupt then
          let closeTr := if st1.conn then [Ev.closeConn] else []
          some (RunExit.interrupted, st1, s1, tr1 ++ closeTr)
        else some (RunExit.crashed e, st1, s1, tr1)) = _
    rw [hmain]
    show (if run_catches e then _ else _) = _
    rw [hcat, if_pos rfl]
    show (match runLoop cfg inner f { st1 with conn := false } s1 with
      | none => none
      | some (x, st2, s2, tr2) =>
        some (x, st2, s2, tr1 ++ (if st1.conn then [Ev.closeConn] else []) ++ tr2)) = _
    rw [show ({ st1 with conn := false } : St) = St.mk st1.sd false from rfl, hrec,
      hconn]
    rfl

/-- C10 witness: a concrete `NoValidConnectionsError` on the first attempt
escapes at once with the remaining retry budget unused. -/
theorem C10_witness :
    ssh_connect ⟨emptyShared, false⟩
      ⟨[], [], [], [some PyErr.noValidConnections, none, none], []⟩ =
      some (Out.err PyErr.noValidConnections
        (St.mk emptyShared true) ⟨[], [], [], [none, none], []⟩
        [Ev.connAttempt]) :=
  (C10_nvce_escapes).1 ⟨emptyShared, false⟩
    ⟨[], [], [], [some PyErr.noValidConnections, none, none], []⟩ [none, none] rfl

/-! ## C9: the pair is not touched on the completed-shutdown path -/

/-- The computation leaves the `shutdown_scheduled` / `shutdown_timestamp`
fields of the shared dictionary exactly as they were in `st`. -/
def PairFrame {α : Type} (st : St) (m : M α) : Prop :=
  ∀ o, m = some o →
    (Out.stOf o).sd.shutdown_scheduled = st.sd.shutdown_scheduled ∧
    (Out.stOf o).sd.shutdown_timestamp = st.sd.shutdown_timestamp

theorem PairFrame_none {α : Type} (st : St) : PairFrame st (none : M α) := by
  intro o h
  simp at h

theorem PairFrame_withTrace {α : Type} (st : St) (tr0 : List Ev) (m : M α)
    (hm : PairFrame st m) : PairFrame st (M.withTrace tr0 m) := by
  intro o h
  obtain ⟨o0, ho0, rfl⟩ := withTrace_eq_some h
  rw [Out.stOf_withTrace]
  exact hm o0 ho0

theorem PairFrame_bind {α β : Type} (st : St) (m : M α)
    (f : α → St → Streams → M β) (hm : PairFrame st m)
    (hf : ∀ a st1 s1 tr, m = some (Out.ok a st1 s1 tr) →
      PairFrame st1 (f a st1 s1)) :
    PairFrame st (M.bind m f) := by
  cases m with
  | none => intro o h; simp [M.bind] at h
  | some o0 =>
    cases o0 with
    | err e st1 s1 tr =>
      intro o h
      injection h with h2
      rw [← h2]
      exact hm _ rfl
    | ok a st1 s1 tr =>
      intro o h
      obtain ⟨o1, ho1, rfl⟩ := withTrace_eq_some h
      have h1 := hm _ rfl
      have h2 := hf a st1 s1 tr rfl o1 ho1
      rw [Out.stOf_withTrace]
      exact ⟨h2.1.trans h1.1, h2.2.trans h1.2⟩

theorem wait_for_client_wakeup_frame (st : St) (s : Streams) :
    PairFrame st (wait_for_client_wakeup st s) := by
  unfold wait_for_client_wakeup
  cases wakeupGo s.pings s.powers with
  | none => exact PairFrame_none st
  | some v =>
    obtain ⟨pg, pw, tr⟩ := v
    intro o h
    injection h with h2
    rw [← h2]
    exact ⟨rfl, rfl⟩

theorem sshConnectGo_frame : ∀ (n : Nat) (st : St) (s : Streams),
    PairFrame st (sshConnectGo n st s) := by
  intro n
  induction n with
  | zero =>
    intro st s o h
    injection h with h2
    rw [← h2]
    exact ⟨rfl, rfl⟩
  | succ n ih =>
    intro st s
    show PairFrame st (match s.conns with
      | [] => none
      | res :: rest => _)
    cases s.conns with
    | nil => exact PairFrame_none st
    | cons res rest =>
      cases res with
      | none =>
        intro o h
        injection h with h2
        rw [← h2]
        exact ⟨rfl, rfl⟩
      | some e0 =>
        cases e0 with
        | sshException =>
          exact PairFrame_withTrace st [Ev.connAttempt] _ (ih _ _)
        | noValidConnections =>
          intro o h
          injection h with h2
          rw [← h2]
          exact ⟨rfl, rfl⟩
        | jsonDecodeError =>
          intro o h
          injection h with h2
          rw [← h2]
          exact ⟨rfl, rfl⟩
        | keyboardInterrupt =>
          intro o h
          injection h with h2
          rw [← h2]
          exact ⟨rfl, rfl⟩

theorem wfcGo_frame : ∀ (f : Nat) (st : St) (s : Streams),
    PairFrame st (wfcGo f st s) := by
  intro f
  induction f with
  | zero => intro st s; exact PairFrame_none st
  | succ f ih =>
    intro st s
    show PairFrame st (M.bind (ssh_connect st s) _)
    refine PairFrame_bind st _ _ (sshConnectGo_frame _ st s) ?_
    intro a st1 s1 tr hok
    cases a with
    | true =>
      intro o h
      injection h with h2
      rw [← h2]
      exact ⟨rfl, rfl⟩
    | false =>
      show PairFrame st1 (M.bind (wait_for_client_wakeup st1 s1) _)
      refine PairFrame_bind st1 _ _ (wait_for_client_wakeup_frame st1 s1) ?_
      intro a2 st2 s2 tr2 hok2
      have hst2 : st2 = st1 := by
        unfold wait_for_client_wakeup at hok2
        cases hgo : wakeupGo s1.pings s1.powers with
        | none => rw [hgo] at hok2; simp at hok2
        | some v =>
          obtain ⟨pg, pw, tr3⟩ := v
          rw [hgo] at hok2
          injection hok2 with h3
          injection h3 with h4 h5 h6 h7
          exact h5.symm
      subst hst2
      exact PairFrame_withTrace st2 _ _ (ih st2 s2)

theorem wait_for_connection_frame (inner : Nat) (st : St) (s : Streams) :
    PairFrame st (wait_for_connection inner st s) := by
  show PairFrame st (M.bind (wait_for_client_wakeup st s) _)
  refine PairFrame_bind st _ _ (wait_for_client_wakeup_frame st s) ?_
  intro a st1 s1 tr hok
  have hst1 : st1 = st := by
    unfold wait_for_client_wakeup at hok
    cases hgo : wakeupGo s.pings s.powers with
    | none => rw [hgo] at hok; simp at hok
    | some v =>
      obtain ⟨pg, pw, tr3⟩ := v
      rw [hgo] at hok
      injection hok with h3
      injection h3 with h4 h5 h6 h7
      exact h5.symm
  subst hst1
  exact wfcGo_frame inner st1 s1

/-- C9: on the completed-shutdown path `battery_loop` writes neither
`shutdown_scheduled` nor `shutdown_timestamp` after the countdown-start
pair: the only recorded writes are that pair, and the final shared state
still carries `shutdown_scheduled = True` and the (now past) deadline.  The
connection supervisor that runs next never touches either field, and the
pair is cleared only by a run of `battery_loop` that aborts a countdown
(returns true with the pair set to false/absent). -/
theorem C9_shutdown_frame (cfg : ServerConfig) :
    (∀ (st st2 : St) (s s2 : Streams) (tr : List Ev),
      battery_loop cfg st s = some (Out.ok false st2 s2 tr) →
      ∃ dl, st2.sd = armedPair st.sd dl ∧
        snapStates tr =
          [{ st.sd with shutdown_scheduled := some true }, armedPair st.sd dl]) ∧
    (∀ (inner : Nat) (st : St) (s : Streams) (out : Out Unit),
      wait_for_connection inner st s = some out →
      (Out.stOf out).sd.shutdown_scheduled = st.sd.shutdown_scheduled ∧
      (Out.stOf out).sd.shutdown_timestamp = st.sd.shutdown_timestamp) ∧
    (∀ (st st2 : St) (s s2 : Streams) (tr : List Ev),
      battery_loop cfg st s = some (Out.ok true st2 s2 tr) →
      (st2.sd = st.sd ∧ snapStates tr = []) ∨
      (st2.sd.shutdown_scheduled = some false ∧
        st2.sd.shutdown_timestamp = none)) := by
  refine ⟨?_, ?_, ?_⟩
  · intro st st2 s s2 tr h
    unfold battery_loop at h
    cases hp : s.powers with
    | nil => rw [hp] at h; simp at h
    | cons p ps =>
      rw [hp] at h
      cases p with
      | true =>
        simp only [if_pos] at h
        injection h with h2
        injection h2 with hb hst hs htr
        simp at hb
      | false =>
        simp only [Bool.false_eq_true, if_false] at h
        cases ht : s.times with
        | nil => simp only [ht] at h; simp at h
        | cons t0 ts =>
          simp only [ht] at h
          obtain ⟨o0, hrec, hout⟩ := withTrace_eq_some h
          cases o0 with
          | err e st' s' tr' => simp [Out.withTrace] at hout
          | ok b st' s' tr' =>
            simp only [Out.withTrace] at hout
            injection hout with hb hst hs htr
            subst hb
            obtain ⟨h1, h2, h3⟩ := batteryDelay_ok_false cfg _ ts _ st' _ s' tr' hrec
            refine ⟨t0 + cfg.SHUTDOWN_DELAY * 60, ?_, ?_⟩
            · rw [hst, h1]
              rfl
            · rw [htr, snapStates_append, h2]
              simp [snapStates, armedPair]
  · intro inner st s out h
    exact wait_for_connection_frame inner st s out h
  · intro st st2 s s2 tr h
    unfold battery_loop at h
    cases hp : s.powers with
    | nil => rw [hp] at h; simp at h
    | cons p ps =>
      rw [hp] at h
      cases p with
      | true =>
        simp only [if_pos] at h
        injection h with h2
        injection h2 with hb hst hs htr
        left
        rw [← hst, ← htr]
        exact ⟨rfl, rfl⟩
      | false =>
        simp only [Bool.false_eq_true, if_false] at h
        cases ht : s.times with
        | nil => simp only [ht] at h; simp at h
        | cons t0 ts =>
          simp only [ht] at h
          obtain ⟨o0, hrec, hout⟩ := withTrace_eq_some h
          cases o0 with
          | err e st' s' tr' => simp [Out.withTrace] at hout
          | ok b st' s' tr' =>
            simp only [Out.withTrace] at hout
            injection hout with hb hst hs htr
            subst hb
            obtain ⟨h1, h2⟩ := batteryDelay_ok_true cfg _ ts _ st' _ s' tr' hrec
            right
            rw [hst, h1]
            exact ⟨rfl, rfl⟩

/-- C9 witness: the concrete completed-shutdown run keeps the armed pair in
the final shared state and records exactly the two countdown-start
writes. -/
theorem C9_witness :
    ∃ dl, (⟨armedPair emptyShared 340, false⟩ : St).sd = armedPair emptyShared dl ∧
      snapStates [Ev.powerObs false,
        Ev.snap { emptyShared with shutdown_scheduled := some true },
        Ev.snap (armedPair emptyShared 340), Ev.powerObs false, Ev.sleepEv 1,
        Ev.cmd "systemctl poweroff", Ev.closeConn, Ev.sleepEv 20] =
        [{ emptyShared with shutdown_scheduled := some true }, armedPair emptyShared dl] :=
  (C9_shutdown_frame cfgDefault).1 ⟨emptyShared, true⟩ ⟨armedPair emptyShared 340, false⟩
    ⟨[], [false, false], [100, 150, 999], [], [CmdRes.out ""]⟩
    ⟨[], [], [], [], []⟩ _ rfl

end DUAS
